import Mathlib

/-!
Verification development for the Pacman-style arcade simulation in
`src/App.tsx`. The simulation core (entity motion, ghost AI, the merge
state machine, the ultimate pursuer, pellet scoring and respawn, and the
per-frame game step inside `draw`) is embedded shallowly below.

Numbers: JavaScript numbers are modelled as real numbers (`ℝ`); grid
coordinates as integers (`ℤ`).  `Math.hypot`, `Math.atan2`, `Math.cos`,
`Math.sin` and `Math.floor` are modelled by their exact mathematical
counterparts (`Real.sqrt` of a sum of squares, `Complex.arg`, `Real.cos`,
`Real.sin`, `Int.floor`).  The two `Math.random()` draws a ghost update may
consume are threaded in as explicit parameters (each assumed in `[0, 1)`
where it matters).
-/

/-- Tile kinds of the maze layout.  Modelled from the spec: the numeric
`TileType` legend is imported from `./constants`, which is not part of the
sources; the spec fixes the legend as WALL, EMPTY, PELLET, PLAYER_START
(called `PACMAN_START` by `App.tsx`) and GHOST_START. -/
inductive Tile where
  | WALL
  | EMPTY
  | PELLET
  | PACMAN_START
  | GHOST_START
  deriving DecidableEq, Repr

/-- The four compass directions; `Direction` in `App.tsx` is one of these
or `null`, which we model as `Option Dir` with `none` for `null`. -/
inductive Dir where
  | UP
  | DOWN
  | LEFT
  | RIGHT
  deriving DecidableEq, Repr

/-- Game phase, `App.tsx`'s `gameState` react value:
`'START' | 'PLAYING' | 'WON' | 'LOST'`. -/
inductive Phase where
  | START
  | PLAYING
  | WON
  | LOST
  deriving DecidableEq, Repr

/-- Modelled from the spec: `TILE_SIZE` is imported from `./constants`,
which is not part of the sources.  The spec treats the tile size as a fixed
constant of the geometry; the drawing code in `App.tsx` (pellet sprite of
size 20 drawn inset by 6 on each side, wall blocks inset by 2) pins it to
32 pixels. -/
def TILE_SIZE : ℝ := 32

/-- `Math.hypot(x, y)`. -/
noncomputable def hypot (x y : ℝ) : ℝ := Real.sqrt (x ^ 2 + y ^ 2)

/-- `Math.atan2(y, x)`: the angle of the point `(x, y)`, i.e. the complex
argument of `x + y*I` (range `(-π, π]`, and `0` at the origin, exactly as
in JavaScript). -/
noncomputable def atan2 (y x : ℝ) : ℝ := Complex.arg ⟨x, y⟩

/-- The `Entity` class of `App.tsx` (lines 18-32): continuous position
`(x, y)`, derived grid cell `(gridX, gridY)`, active and buffered
direction, and speed. -/
structure Entity where
  x : ℝ
  y : ℝ
  gridX : ℤ
  gridY : ℤ
  direction : Option Dir
  nextDirection : Option Dir
  speed : ℝ

/-- The `Entity` constructor (lines 27-32): spawn at the centre of grid
cell `(gridX, gridY)`; `direction = nextDirection = null`, `speed = 2`. -/
noncomputable def Entity.make (gridX gridY : ℤ) : Entity :=
  { x := (gridX : ℝ) * TILE_SIZE + TILE_SIZE / 2
    y := (gridY : ℝ) * TILE_SIZE + TILE_SIZE / 2
    gridX := gridX
    gridY := gridY
    direction := none
    nextDirection := none
    speed := 2 }

/-- Bounds-unchecked tile read `m[gy][gx]`, total with default `WALL`
(out-of-range JavaScript reads give `undefined`, which compares unequal to
every tile code; `WALL` plays that role since every use compares against
`PELLET`, `EMPTY` or `WALL` under a bounds guard). -/
def tget (m : List (List Tile)) (gy gx : ℤ) : Tile :=
  (m.getD gy.toNat []).getD gx.toNat Tile.WALL

/-- The one-cell displacement of a direction, as used by `canMove`,
`updateAI`'s movement block and `updateChasingAI`'s lookahead. -/
def Dir.dx : Dir → ℤ
  | Dir.LEFT => -1
  | Dir.RIGHT => 1
  | _ => 0

/-- Vertical counterpart of `Dir.dx` (screen coordinates: `UP` is `-1`). -/
def Dir.dy : Dir → ℤ
  | Dir.UP => -1
  | Dir.DOWN => 1
  | _ => 0

/-- `Entity.canMove` (lines 34-46): `false` on a null direction; compute
the target cell one step away; `false` when it is out of bounds (the x
bound is row 0's length, exactly as in the source); otherwise the target
tile must not be a wall. -/
def Entity.canMove (e : Entity) (dir : Option Dir) (m : List (List Tile)) : Bool :=
  match dir with
  | none => false
  | some d =>
    let nextGridX := e.gridX + d.dx
    let nextGridY := e.gridY + d.dy
    if nextGridY < 0 || (m.length : ℤ) ≤ nextGridY || nextGridX < 0 ||
        ((m.headD []).length : ℤ) ≤ nextGridX then false
    else tget m nextGridY nextGridX != Tile.WALL

/-- The movement block shared verbatim by `updatePosition` (lines 69-78),
`updateAI` (lines 151-159) and `updateChasingAI` (lines 207-215): move
`speed` units along the active direction and recompute the grid cell as
`Math.floor(position / TILE_SIZE)` on each axis. -/
noncomputable def Entity.applyMove (e : Entity) (d : Dir) : Entity :=
  let x2 := e.x + (d.dx : ℝ) * e.speed
  let y2 := e.y + (d.dy : ℝ) * e.speed
  { e with x := x2, y := y2, gridX := ⌊x2 / TILE_SIZE⌋, gridY := ⌊y2 / TILE_SIZE⌋ }

/-- `Entity.updatePosition` (lines 48-79).  At the tile centre (within
`speed` on both axes): snap to the exact centre, adopt a legal buffered
direction (clearing the buffer), else clear an illegal active direction.
Then, if a direction is active, move along it and recompute the grid
cell. -/
noncomputable def Entity.updatePosition (e : Entity) (m : List (List Tile)) : Entity :=
  let centerX := (e.gridX : ℝ) * TILE_SIZE + TILE_SIZE / 2
  let centerY := (e.gridY : ℝ) * TILE_SIZE + TILE_SIZE / 2
  let e1 :=
    if |e.x - centerX| < e.speed ∧ |e.y - centerY| < e.speed then
      let s := { e with x := centerX, y := centerY }
      if s.nextDirection ≠ none ∧ s.canMove s.nextDirection m then
        { s with direction := s.nextDirection, nextDirection := none }
      else if s.direction ≠ none ∧ ¬ s.canMove s.direction m then
        { s with direction := none }
      else s
    else e
  match e1.direction with
  | none => e1
  | some d => e1.applyMove d

/-- The `Ghost` class (lines 82-91): an `Entity` plus the one-way
`isMerging` and `merged` latches.  The cosmetic `color` string (whose
palette lives in the absent `./constants`) is omitted: no behaviour reads
it. -/
structure Ghost extends Entity where
  isMerging : Bool
  merged : Bool

/-- The `Ghost` constructor (lines 87-91): an entity at the cell with
`speed = 2` and both latches down. -/
noncomputable def Ghost.make (gridX gridY : ℤ) : Ghost :=
  { Entity.make gridX gridY with isMerging := false, merged := false }

/-- The reversal test of `updateAI` (lines 134-138): `d` is the exact
reverse of the current direction. -/
def isReverse : Option Dir → Dir → Bool
  | some Dir.UP, Dir.DOWN => true
  | some Dir.DOWN, Dir.UP => true
  | some Dir.LEFT, Dir.RIGHT => true
  | some Dir.RIGHT, Dir.LEFT => true
  | _, _ => false

/-- The direction enumeration order `['UP', 'DOWN', 'LEFT', 'RIGHT']`
used by both AIs. -/
def dirsList : List Dir := [Dir.UP, Dir.DOWN, Dir.LEFT, Dir.RIGHT]

/-- `directions.filter(dir => this.canMove(dir, map))` — the legal
directions from the ghost's cell. -/
def Ghost.legalDirs (g : Ghost) (m : List (List Tile)) : List Dir :=
  dirsList.filter (fun d => g.canMove (some d) m)

/-- The candidate filter of `updateAI` (lines 133-141): a direction is a
candidate iff it is legal and (it is not the reverse of the current
direction, or there is exactly one legal direction at all). -/
def Ghost.availableDirs (g : Ghost) (m : List (List Tile)) : List Dir :=
  dirsList.filter (fun d =>
    g.canMove (some d) m && (!(isReverse g.direction d) || (g.legalDirs m).length == 1))

/-- The trailing movement block of both ghost AIs (lines 151-159 and
207-215), `if (this.direction) move`: a ghost with an active direction
moves along it via the shared movement block. -/
noncomputable def Ghost.moveActive (g1 : Ghost) : Ghost :=
  match g1.direction with
  | none => g1
  | some d => { g1 with toEntity := g1.toEntity.applyMove d }

/-- The convergence branch of `Ghost.updateAI` (lines 100-121), entered
while `isMerging` and not yet `merged`: move `speed` units at the angle
`atan2` gives toward the maze centre `(9.5 * TILE_SIZE, 9.5 * TILE_SIZE)`
ignoring walls (the map is never consulted), recompute the grid cell, and
if the distance to the centre has fallen below 5 units, latch `merged`,
snap to the centre and clear the direction. -/
noncomputable def Ghost.mergeStep (g : Ghost) : Ghost :=
  let targetX : ℝ := 9 * TILE_SIZE + TILE_SIZE / 2
  let targetY : ℝ := 9 * TILE_SIZE + TILE_SIZE / 2
  let angle := atan2 (targetY - g.y) (targetX - g.x)
  let x1 := g.x + Real.cos angle * g.speed
  let y1 := g.y + Real.sin angle * g.speed
  let gx := ⌊x1 / TILE_SIZE⌋
  let gy := ⌊y1 / TILE_SIZE⌋
  if hypot (x1 - targetX) (y1 - targetY) < 5 then
    { g with x := targetX, y := targetY, gridX := gx, gridY := gy,
             merged := true, direction := none }
  else
    { g with x := x1, y := y1, gridX := gx, gridY := gy }

/-- `Ghost.updateAI` (lines 93-160).  A merged ghost is frozen.  Otherwise
the speed is 3 while merging, else 2; a merging ghost runs `mergeStep`; a
roaming ghost, at a tile centre (or with no active direction), snaps to
the centre and picks a direction: with the current direction still legal
it keeps it when `r1 < 0.7`, otherwise it takes
`available[Math.floor(r2 * available.length)]` (an out-of-range index
models as `none`, matching the `undefined` it would give).  Finally it
moves along its active direction, recomputing the grid cell. -/
noncomputable def Ghost.updateAI (g0 : Ghost) (m : List (List Tile)) (r1 r2 : ℝ) : Ghost :=
  if g0.merged then g0
  else
    let currentSpeed : ℝ := if g0.isMerging then 3 else 2
    let g : Ghost := { g0 with speed := currentSpeed }
    if g.isMerging then g.mergeStep
    else
      let centerX := (g.gridX : ℝ) * TILE_SIZE + TILE_SIZE / 2
      let centerY := (g.gridY : ℝ) * TILE_SIZE + TILE_SIZE / 2
      let g1 :=
        if (|g.x - centerX| < currentSpeed ∧ |g.y - centerY| < currentSpeed) ∨
            g.direction = none then
          let s : Ghost := { g with x := centerX, y := centerY }
          let available := s.availableDirs m
          if 0 < available.length then
            if s.direction ≠ none ∧ s.canMove s.direction m ∧ r1 < 0.7 then s
            else { s with direction := available.get? (⌊r2 * (available.length : ℝ)⌋).toNat }
          else s
        else g
      g1.moveActive

/-- The `UltimateGhost` constructor (lines 163-168): a ghost with
`speed = 3`, already `merged` (it is the result of merging); its colour is
cosmetic and omitted as for `Ghost`. -/
noncomputable def UltimateGhost.make (gridX gridY : ℤ) : Ghost :=
  { Ghost.make gridX gridY with speed := 3, merged := true }

/-- The sort key of `updateChasingAI` (lines 186-196): the Euclidean
distance from the cell one step in direction `d` to Pacman's grid cell. -/
noncomputable def Ghost.chaseDist (u : Ghost) (pacman : Entity) (d : Dir) : ℝ :=
  hypot (((u.gridX + d.dx : ℤ) : ℝ) - (pacman.gridX : ℝ))
        (((u.gridY + d.dy : ℤ) : ℝ) - (pacman.gridY : ℝ))

/-- `UltimateGhost.updateChasingAI` (lines 170-216).  At a tile centre (or
with no active direction): snap to the centre, take the legal directions
(no reversal restriction), stable-sort them by distance-to-Pacman
(`Array.prototype.sort` with the comparator `distA - distB` is stable, as
is `List.mergeSort`); with `r1 < 0.8` take the nearest-ranked one, else
take `sorted[Math.floor(r2 * sorted.length)]` (the sort is in place, so
the random pick is from the sorted array; an out-of-range index models as
`none`).  Then move along the active direction, recomputing the grid
cell. -/
noncomputable def Ghost.updateChasingAI (u : Ghost) (m : List (List Tile))
    (pacman : Entity) (r1 r2 : ℝ) : Ghost :=
  let centerX := (u.gridX : ℝ) * TILE_SIZE + TILE_SIZE / 2
  let centerY := (u.gridY : ℝ) * TILE_SIZE + TILE_SIZE / 2
  let u1 :=
    if (|u.x - centerX| < u.speed ∧ |u.y - centerY| < u.speed) ∨ u.direction = none then
      let s : Ghost := { u with x := centerX, y := centerY }
      let available := dirsList.filter (fun d => s.canMove (some d) m)
      if 0 < available.length then
        let sorted := available.mergeSort
          (fun a b => decide (s.chaseDist pacman a ≤ s.chaseDist pacman b))
        if r1 < 0.8 then { s with direction := sorted.get? 0 }
        else { s with direction := sorted.get? (⌊r2 * (sorted.length : ℝ)⌋).toNat }
      else s
    else u
  u1.moveActive

/-- The simulation state owned by `gameData` plus the react values `score`
(mirrored into `gameData.current.score`), `pelletsLeft` and `gameState`.
`pacman` is modelled non-null as every simulation path runs after
`initGame`. -/
structure GameState where
  map : List (List Tile)
  pacman : Entity
  ghosts : List Ghost
  ultimateGhost : Option Ghost
  score : ℕ
  pelletsLeft : ℤ
  phase : Phase

/-- Row-major enumeration `(x, y, tile)` of a layout, in the scan order of
`initGame`'s nested loops (`y` outer, `x` inner). -/
def cellsOf (M : List (List Tile)) : List (ℕ × ℕ × Tile) :=
  (M.enum.map (fun r => r.2.enum.map (fun c => (c.1, r.1, c.2)))).flatten

/-- `initGame` (lines 294-320), parameterized by the immutable layout `MAP`
(which lives in the absent `./constants`): copy the layout, count its
pellets, locate the player start (`{x: 9, y: 15}` when the layout has no
`PACMAN_START`; a later occurrence overwrites an earlier one) and the
ghost starts in scan order; the player starts moving `LEFT` with `LEFT`
buffered; no ultimate ghost; score 0; phase `PLAYING`. -/
noncomputable def initGame (M : List (List Tile)) : GameState :=
  let cells := cellsOf M
  let pCount := cells.countP (fun c => c.2.2 = Tile.PELLET)
  let pacmanStart : ℤ × ℤ :=
    cells.foldl (fun acc c => if c.2.2 = Tile.PACMAN_START then ((c.1 : ℤ), (c.2.1 : ℤ)) else acc)
      (9, 15)
  let ghostStarts : List (ℤ × ℤ) :=
    cells.filterMap (fun c =>
      if c.2.2 = Tile.GHOST_START then some ((c.1 : ℤ), (c.2.1 : ℤ)) else none)
  { map := M
    pacman := { Entity.make pacmanStart.1 pacmanStart.2 with
                direction := some Dir.LEFT, nextDirection := some Dir.LEFT }
    ghosts := ghostStarts.map (fun p => Ghost.make p.1 p.2)
    ultimateGhost := none
    score := 0
    pelletsLeft := (pCount : ℤ)
    phase := Phase.PLAYING }

/-- Write `m[gy][gx] := t` (no-op out of range, as the callers only write
in range). -/
def setTile (m : List (List Tile)) (gy gx : ℤ) (t : Tile) : List (List Tile) :=
  m.set gy.toNat ((m.getD gy.toNat []).set gx.toNat t)

/-- The pellet-consumption stage of `draw` (lines 377-391), run right
after the player has moved: if the player's cell holds a `PELLET`, clear
it, add 10 to the score, flag `WON` when the new score reaches 1800,
decrement the pellet count, and flag `WON` when it reaches 0 (the two
checks are issued independently, in this order). -/
def eatStage (st : GameState) : GameState :=
  if tget st.map st.pacman.gridY st.pacman.gridX = Tile.PELLET then
    let map1 := setTile st.map st.pacman.gridY st.pacman.gridX Tile.EMPTY
    let score1 := st.score + 10
    let phase1 := if 1800 ≤ score1 then Phase.WON else st.phase
    let pellets1 := st.pelletsLeft - 1
    let phase2 := if pellets1 = 0 then Phase.WON else phase1
    { st with map := map1, score := score1, pelletsLeft := pellets1, phase := phase2 }
  else st

/-- One ghost's treatment at the head of the per-ghost loop of `draw`
(lines 421-424): flip `isMerging` on when the cumulative score has reached
1500 (the same check is issued for every ghost of the tick — a broadcast),
then run `updateAI` with this tick's two random draws. -/
noncomputable def ghostTick (m : List (List Tile)) (score : ℕ) (r : ℝ × ℝ) (g : Ghost) : Ghost :=
  (if 1500 ≤ score then { g with isMerging := true } else g).updateAI m r.1 r.2

/-- The collision predicate of the per-ghost loop (lines 426-432): the
ghost is tested only when not `merged`, and the test fires when the
player-ghost distance is below `TILE_SIZE / 1.5` and the ghost is not
merging. -/
def ghostHit (pacman : Entity) (g : Ghost) : Prop :=
  g.merged = false ∧ hypot (pacman.x - g.x) (pacman.y - g.y) < TILE_SIZE / 1.5 ∧
    g.isMerging = false

noncomputable instance ghostHit.dec (p : Entity) (g : Ghost) : Decidable (ghostHit p g) := by
  unfold ghostHit
  infer_instance

/-- The `ghosts.forEach` loop of `draw` (lines 421-458), as a fold: each
ghost in order is put through `ghostTick` (with its own pair of random
draws, indexed by position) and a hit assigns `LOST` to the phase. -/
noncomputable def ghostFold (m : List (List Tile)) (pacman : Entity) (score : ℕ)
    (rs : ℕ → ℝ × ℝ) : List (ℕ × Ghost) → List Ghost × Phase → List Ghost × Phase
  | [], acc => acc
  | (i, g) :: rest, (gs, ph) =>
    let g1 := ghostTick m score (rs i) g
    ghostFold m pacman score rs rest (gs ++ [g1], if ghostHit pacman g1 then Phase.LOST else ph)

/-- The per-ghost phase of `draw`: run the loop over the ghost list. -/
noncomputable def ghostStage (rs : ℕ → ℝ × ℝ) (st : GameState) : GameState :=
  let res := ghostFold st.map st.pacman st.score rs st.ghosts.enum ([], st.phase)
  { st with ghosts := res.1, phase := res.2 }

/-- `ghosts.length > 0 && ghosts.every(g => g.merged)` (line 461). -/
def allMerged (st : GameState) : Bool :=
  decide (0 < st.ghosts.length) && st.ghosts.all (fun g => g.merged)

/-- The ultimate-ghost phase of `draw` (lines 461-474): once every ghost is
merged, lazily create the `UltimateGhost` at the maze centre cell `(9, 9)`,
run its chasing AI, and assign `LOST` when the player is within
`TILE_SIZE / 1.2` of it. -/
noncomputable def ultimateStage (r1 r2 : ℝ) (st : GameState) : GameState :=
  if allMerged st then
    let ug0 := st.ultimateGhost.getD (UltimateGhost.make 9 9)
    let ug1 := ug0.updateChasingAI st.map st.pacman r1 r2
    let phase1 :=
      if hypot (st.pacman.x - ug1.x) (st.pacman.y - ug1.y) < TILE_SIZE / 1.2 then Phase.LOST
      else st.phase
    { st with ultimateGhost := some ug1, phase := phase1 }
  else st

/-- One simulation step: the per-frame effects of `draw` in source order —
move the player (line 375), resolve pellet pickup and the win checks
(377-391), run every ghost and its collision check (421-458), then the
ultimate-ghost phase (461-474).  `rs` carries each ghost's pair of random
draws, `u1 u2` the ultimate ghost's. -/
noncomputable def step (rs : ℕ → ℝ × ℝ) (u1 u2 : ℝ) (st : GameState) : GameState :=
  ultimateStage u1 u2 (ghostStage rs (eatStage { st with pacman := st.pacman.updatePosition st.map }))

/-- The respawn condition for one cell (lines 274-278): the original
layout has a `PELLET` there, the live grid is `EMPTY` there, and the cell
is not the player's current cell. -/
def shouldRespawn (orig : List (List Tile)) (px py : ℤ) (y x : ℕ) (t : Tile) : Bool :=
  (tget orig (y : ℤ) (x : ℤ) == Tile.PELLET) && (t == Tile.EMPTY) &&
    !((px == (x : ℤ)) && (py == (y : ℤ)))

/-- One row of the respawn sweep, carrying the running column index. -/
def respawnRow (orig : List (List Tile)) (px py : ℤ) (y : ℕ) : ℕ → List Tile → List Tile
  | _, [] => []
  | x, t :: ts =>
    (if shouldRespawn orig px py y x t then Tile.PELLET else t) ::
      respawnRow orig px py y (x + 1) ts

/-- Restored-cell count of one row of the respawn sweep. -/
def respawnRowCount (orig : List (List Tile)) (px py : ℤ) (y : ℕ) : ℕ → List Tile → ℕ
  | _, [] => 0
  | x, t :: ts =>
    (if shouldRespawn orig px py y x t then 1 else 0) + respawnRowCount orig px py y (x + 1) ts

/-- All rows of the respawn sweep, carrying the running row index. -/
def respawnRows (orig : List (List Tile)) (px py : ℤ) : ℕ → List (List Tile) → List (List Tile)
  | _, [] => []
  | y, row :: rows => respawnRow orig px py y 0 row :: respawnRows orig px py (y + 1) rows

/-- Restored-cell count of the whole respawn sweep. -/
def respawnRowsCount (orig : List (List Tile)) (px py : ℤ) : ℕ → List (List Tile) → ℕ
  | _, [] => 0
  | y, row :: rows => respawnRowCount orig px py y 0 row + respawnRowsCount orig px py (y + 1) rows

/-- The respawn-interval body (lines 265-292), as a grid transformer: for
every cell where the original layout says `PELLET`, the live grid says
`EMPTY` and the cell is not the player's cell `(px, py)`, set it back to
`PELLET`; also report the count restored.  The source iterates the
original layout's index space writing into the live grid; the two have the
same shape, so sweeping the live grid while reading the original by index
is the same mutation. -/
def respawnPellets (orig cur : List (List Tile)) (px py : ℤ) : List (List Tile) × ℕ :=
  (respawnRows orig px py 0 cur, respawnRowsCount orig px py 0 cur)

/-- The respawn timer effect on the game state: it only runs while the
phase is `PLAYING`, rewrites the live grid and adds the restored count to
the pellet counter. -/
def respawnStage (M : List (List Tile)) (st : GameState) : GameState :=
  if st.phase = Phase.PLAYING then
    let r := respawnPellets M st.map st.pacman.gridX st.pacman.gridY
    { st with map := r.1, pelletsLeft := st.pelletsLeft + (r.2 : ℤ) }
  else st

/-- The keys `handleKeyDown` (lines 322-328) reacts to; `other` stands for
every other `KeyboardEvent.key` value. -/
inductive Key where
  | arrowUp
  | arrowDown
  | arrowLeft
  | arrowRight
  | other
  deriving DecidableEq

/-- `handleKeyDown` (lines 322-328): a no-op while `pacman` is null
(before the first game); otherwise an arrow key overwrites the buffered
next-direction.  The handler never reads the game phase. -/
def handleKeyDown (k : Key) : Option Entity → Option Entity
  | none => none
  | some p =>
    some (match k with
      | Key.arrowUp => { p with nextDirection := some Dir.UP }
      | Key.arrowDown => { p with nextDirection := some Dir.DOWN }
      | Key.arrowLeft => { p with nextDirection := some Dir.LEFT }
      | Key.arrowRight => { p with nextDirection := some Dir.RIGHT }
      | Key.other => p)

/-- The slice of app state the key handler can observe and mutate: the
react phase value and the (nullable) player entity. -/
structure AppState where
  phase : Phase
  pacman : Option Entity

/-- The key handler acting on the app state: only the player's buffer can
change; the phase is neither read nor written. -/
def appHandleKey (k : Key) (s : AppState) : AppState :=
  { s with pacman := handleKeyDown k s.pacman }

/-- A key event acting on the in-game state (after `initGame`, `pacman` is
non-null). -/
def keyStage (k : Key) (st : GameState) : GameState :=
  { st with pacman := (handleKeyDown k (some st.pacman)).getD st.pacman }

/-- The states a single game can reach from `initGame` on layout `M`:
frame steps, respawn-timer firings and key events, in any order. -/
inductive Reachable (M : List (List Tile)) : GameState → Prop
  | init : Reachable M (initGame M)
  | frame (rs : ℕ → ℝ × ℝ) (u1 u2 : ℝ) (st : GameState) :
      Reachable M st → Reachable M (step rs u1 u2 st)
  | respawn (st : GameState) : Reachable M st → Reachable M (respawnStage M st)
  | key (k : Key) (st : GameState) : Reachable M st → Reachable M (keyStage k st)

/-! ## Basic facts about the geometry helpers -/

lemma hypot_nonneg (x y : ℝ) : 0 ≤ hypot x y := Real.sqrt_nonneg _

lemma hypot_eq_abs (x y : ℝ) : hypot x y = Complex.abs ⟨x, y⟩ := by
  rw [Complex.abs_apply, Complex.normSq_mk, hypot]
  congr 1
  ring

lemma abs_le_hypot_left (x y : ℝ) : |x| ≤ hypot x y := by
  rw [show |x| = Real.sqrt (x ^ 2) by rw [Real.sqrt_sq_eq_abs]]
  exact Real.sqrt_le_sqrt (le_add_of_nonneg_right (sq_nonneg y))

lemma abs_le_hypot_right (x y : ℝ) : |y| ≤ hypot x y := by
  rw [show |y| = Real.sqrt (y ^ 2) by rw [Real.sqrt_sq_eq_abs]]
  exact Real.sqrt_le_sqrt (le_add_of_nonneg_left (sq_nonneg x))

lemma cos_atan2 (y x : ℝ) (h : ¬(x = 0 ∧ y = 0)) :
    Real.cos (atan2 y x) = x / hypot x y := by
  have hz : (⟨x, y⟩ : ℂ) ≠ 0 := by
    simpa [Complex.ext_iff] using h
  rw [atan2, Complex.cos_arg hz, hypot_eq_abs]

lemma sin_atan2 (y x : ℝ) : Real.sin (atan2 y x) = y / hypot x y := by
  rw [atan2, Complex.sin_arg, hypot_eq_abs]

lemma hypot_pos (x y : ℝ) (h : ¬(x = 0 ∧ y = 0)) : 0 < hypot x y := by
  rcases lt_or_eq_of_le (hypot_nonneg x y) with hlt | heq
  · exact hlt
  · exfalso
    have hx := abs_le_hypot_left x y
    have hy := abs_le_hypot_right x y
    rw [← heq] at hx hy
    have hx0 : x = 0 := abs_nonpos_iff.mp hx
    have hy0 : y = 0 := abs_nonpos_iff.mp hy
    exact h ⟨hx0, hy0⟩

lemma sq_hypot (x y : ℝ) : hypot x y ^ 2 = x ^ 2 + y ^ 2 :=
  Real.sq_sqrt (by positivity)

/-- The floor of a tile-centre coordinate recovers the grid index. -/
lemma floor_center (g : ℤ) : ⌊((g : ℝ) * TILE_SIZE + TILE_SIZE / 2) / TILE_SIZE⌋ = g := by
  have h : ((g : ℝ) * TILE_SIZE + TILE_SIZE / 2) / TILE_SIZE = (g : ℝ) + 1 / 2 := by
    rw [TILE_SIZE]
    ring
  rw [h, Int.floor_eq_iff]
  constructor
  · norm_num
  · norm_num

/-! ## The grid-cell invariant (claim C4's property) -/

/-- The invariant of the spec's data model: an entity's stored grid cell
equals the floor of its continuous position divided by the tile size,
on both axes. -/
def gridInv (e : Entity) : Prop :=
  e.gridX = ⌊e.x / TILE_SIZE⌋ ∧ e.gridY = ⌊e.y / TILE_SIZE⌋

/-- Moving along a direction re-establishes the invariant by construction:
the grid cell is recomputed from the new position. -/
lemma gridInv_applyMove (e : Entity) (d : Dir) : gridInv (e.applyMove d) := by
  constructor <;> rfl

/-- An entity snapped to the centre of its stored cell satisfies the
invariant. -/
lemma gridInv_of_center (e : Entity)
    (hx : e.x = (e.gridX : ℝ) * TILE_SIZE + TILE_SIZE / 2)
    (hy : e.y = (e.gridY : ℝ) * TILE_SIZE + TILE_SIZE / 2) : gridInv e := by
  constructor
  · rw [hx, floor_center]
  · rw [hy, floor_center]

/-- The trailing movement block preserves the invariant. -/
lemma gridInv_matchMove (e1 : Entity) (h : gridInv e1) :
    gridInv (match e1.direction with | none => e1 | some d => e1.applyMove d) := by
  rcases hd : e1.direction with _ | d
  · exact h
  · exact gridInv_applyMove _ d

lemma gridInv_updatePosition (e : Entity) (m : List (List Tile)) (h : gridInv e) :
    gridInv (e.updatePosition m) := by
  unfold Entity.updatePosition
  dsimp only
  apply gridInv_matchMove
  split
  case isTrue hc =>
    split
    case isTrue hn => exact gridInv_of_center _ rfl rfl
    case isFalse hn =>
      split
      case isTrue hd => exact gridInv_of_center _ rfl rfl
      case isFalse hd => exact gridInv_of_center _ rfl rfl
  case isFalse hc => exact h

/-- A coordinate within 5 units of the maze-centre coordinate
`9 * TILE_SIZE + TILE_SIZE / 2 = 304` floors to grid index 9. -/
lemma floor_near_center (x1 : ℝ) (h : |x1 - (9 * TILE_SIZE + TILE_SIZE / 2)| < 5) :
    ⌊x1 / TILE_SIZE⌋ = 9 := by
  rw [TILE_SIZE] at *
  rw [abs_lt] at h
  rw [Int.floor_eq_iff]
  rw [le_div_iff (by norm_num : (0:ℝ) < 32), div_lt_iff (by norm_num : (0:ℝ) < 32)]
  constructor
  · push_cast
    linarith [h.1]
  · push_cast
    linarith [h.2]

lemma gridInv_mergeStep (g : Ghost) : gridInv g.mergeStep.toEntity := by
  unfold Ghost.mergeStep
  dsimp only
  split
  case isTrue hlt =>
    constructor
    · show ⌊_ / TILE_SIZE⌋ = ⌊(9 * TILE_SIZE + TILE_SIZE / 2) / TILE_SIZE⌋
      rw [floor_near_center _ (lt_of_le_of_lt (abs_le_hypot_left _ _) hlt)]
      rw [show (9 : ℝ) * TILE_SIZE + TILE_SIZE / 2 = ((9:ℤ) : ℝ) * TILE_SIZE + TILE_SIZE / 2
        by push_cast; ring, floor_center]
    · show ⌊_ / TILE_SIZE⌋ = ⌊(9 * TILE_SIZE + TILE_SIZE / 2) / TILE_SIZE⌋
      rw [floor_near_center _ (lt_of_le_of_lt (abs_le_hypot_right _ _) hlt)]
      rw [show (9 : ℝ) * TILE_SIZE + TILE_SIZE / 2 = ((9:ℤ) : ℝ) * TILE_SIZE + TILE_SIZE / 2
        by push_cast; ring, floor_center]
  case isFalse hlt =>
    exact ⟨rfl, rfl⟩

/-- The ghosts' trailing movement block preserves the invariant. -/
lemma gridInv_moveActive (g1 : Ghost) (h : gridInv g1.toEntity) :
    gridInv g1.moveActive.toEntity := by
  unfold Ghost.moveActive
  rcases hd : g1.direction with _ | d
  · exact h
  · exact gridInv_applyMove _ d

lemma gridInv_updateAI (g : Ghost) (m : List (List Tile)) (r1 r2 : ℝ)
    (h : gridInv g.toEntity) : gridInv ((g.updateAI m r1 r2).toEntity) := by
  unfold Ghost.updateAI
  dsimp only
  split
  case isTrue hm => exact h
  case isFalse hm =>
    split
    case isTrue hmg => exact gridInv_mergeStep _
    case isFalse hmg =>
      apply gridInv_moveActive
      split
      case isTrue hc =>
        split
        case isTrue ha =>
          split
          case isTrue hr => exact gridInv_of_center _ rfl rfl
          case isFalse hr => exact gridInv_of_center _ rfl rfl
        case isFalse ha => exact gridInv_of_center _ rfl rfl
      case isFalse hc => exact h

lemma gridInv_updateChasingAI (u : Ghost) (m : List (List Tile)) (p : Entity) (r1 r2 : ℝ)
    (h : gridInv u.toEntity) : gridInv ((u.updateChasingAI m p r1 r2).toEntity) := by
  unfold Ghost.updateChasingAI
  dsimp only
  apply gridInv_moveActive
  split
  case isTrue hc =>
    split
    case isTrue ha =>
      split
      case isTrue hr => exact gridInv_of_center _ rfl rfl
      case isFalse hr => exact gridInv_of_center _ rfl rfl
    case isFalse ha => exact gridInv_of_center _ rfl rfl
  case isFalse hc => exact h

/-- CLAIM C4: for every entity (player, roaming ghost, or ultimate ghost)
and every grid, after any single motion-update call (`updatePosition`,
`updateAI`, `updateChasingAI`) the stored grid cell `(gridX, gridY)` equals
`floor(continuous position / TILE_SIZE)` component-wise, provided this
equality held before the call. -/
theorem claim_C4_grid_invariant :
    (∀ (e : Entity) (m : List (List Tile)), gridInv e → gridInv (e.updatePosition m)) ∧
    (∀ (g : Ghost) (m : List (List Tile)) (r1 r2 : ℝ), gridInv g.toEntity →
      gridInv ((g.updateAI m r1 r2).toEntity)) ∧
    (∀ (u : Ghost) (m : List (List Tile)) (p : Entity) (r1 r2 : ℝ), gridInv u.toEntity →
      gridInv ((u.updateChasingAI m p r1 r2).toEntity)) :=
  ⟨gridInv_updatePosition, gridInv_updateAI, gridInv_updateChasingAI⟩

/-- A concrete mid-edge entity used to instantiate claim C4. -/
noncomputable def c4e : Entity := ⟨48, 48, 1, 1, some Dir.RIGHT, none, 2⟩

/-- A concrete merging ghost used to instantiate claim C4. -/
noncomputable def c4g : Ghost := ⟨⟨300, 300, 9, 9, some Dir.UP, none, 2⟩, true, false⟩

theorem claim_C4_witness :
    gridInv (c4e.updatePosition []) ∧ gridInv ((c4g.updateAI [] 0 0).toEntity) ∧
    gridInv ((c4g.updateChasingAI [] c4e 0 0).toEntity) := by
  have he : gridInv c4e := by
    constructor <;> norm_num [c4e, TILE_SIZE]
  have hg : gridInv c4g.toEntity := by
    constructor <;> norm_num [c4g, TILE_SIZE]
  exact ⟨claim_C4_grid_invariant.1 c4e [] he,
    claim_C4_grid_invariant.2.1 c4g [] 0 0 hg,
    claim_C4_grid_invariant.2.2 c4g [] c4e 0 0 hg⟩

/-! ## The merge state machine (claim C1) -/

lemma moveActive_isMerging (g1 : Ghost) : g1.moveActive.isMerging = g1.isMerging := by
  unfold Ghost.moveActive
  rcases hd : g1.direction with _ | d <;> rfl

lemma mergeStep_isMerging (g : Ghost) : g.mergeStep.isMerging = g.isMerging := by
  unfold Ghost.mergeStep
  dsimp only
  split <;> rfl

/-- `updateAI` never writes `isMerging`: only the broadcast in the ghost
loop does. -/
lemma updateAI_isMerging (g : Ghost) (m : List (List Tile)) (r1 r2 : ℝ) :
    (g.updateAI m r1 r2).isMerging = g.isMerging := by
  unfold Ghost.updateAI
  dsimp only
  split
  · rfl
  · split
    case isTrue hmg => exact mergeStep_isMerging _
    case isFalse hmg =>
      rw [moveActive_isMerging]
      split
      case isTrue hc =>
        split
        case isTrue ha =>
          split
          case isTrue hr => rfl
          case isFalse hr => rfl
        case isFalse ha => rfl
      case isFalse hc => rfl

lemma ghostTick_isMerging (m : List (List Tile)) (score : ℕ) (r : ℝ × ℝ) (g : Ghost)
    (h : 1500 ≤ score) : (ghostTick m score r g).isMerging = true := by
  unfold ghostTick
  rw [if_pos h, updateAI_isMerging]

/-- A merging, not-yet-merged ghost's update is exactly the convergence
step at speed 3: the map and both random draws are ignored. -/
lemma updateAI_merging (g : Ghost) (m : List (List Tile)) (r1 r2 : ℝ)
    (hmg : g.isMerging = true) (hm : g.merged = false) :
    g.updateAI m r1 r2 = Ghost.mergeStep { g with speed := 3 } := by
  unfold Ghost.updateAI
  dsimp only
  rw [if_neg (by rw [hm]; exact Bool.false_ne_true)]
  have h1 : ({ g with speed := if g.isMerging = true then (3:ℝ) else 2 } : Ghost).isMerging
      = g.isMerging := rfl
  rw [if_pos]
  · rw [hmg, if_pos rfl]
  · rw [h1, hmg]

/-- Evaluation helper: `hypot x y = a` whenever `x² + y² = a²` with
`0 ≤ a`. -/
lemma hypot_eval (x y a : ℝ) (ha : 0 ≤ a) (h : x ^ 2 + y ^ 2 = a ^ 2) : hypot x y = a := by
  rw [hypot, h, Real.sqrt_sq ha]

/-- Full characterisation of the convergence step: away from the centre the
ghost moves exactly 3 units straight toward the centre (the `cos`/`sin` of
`atan2` give the unit vector toward the target), and it latches `merged` —
snapping to the centre and clearing its direction — exactly when the moved
position is within 5 units of the centre. -/
lemma mergeStep_spec (g : Ghost) (targetC dC x1 y1 : ℝ)
    (htc : targetC = 9 * TILE_SIZE + TILE_SIZE / 2)
    (hdC : dC = hypot (targetC - g.x) (targetC - g.y))
    (hx1e : x1 = g.x + (targetC - g.x) / dC * 3)
    (hy1e : y1 = g.y + (targetC - g.y) / dC * 3)
    (hs : g.speed = 3)
    (hne : ¬(g.x = targetC ∧ g.y = targetC)) :
    (x1 - g.x) ^ 2 + (y1 - g.y) ^ 2 = 3 ^ 2 ∧
    (hypot (x1 - targetC) (y1 - targetC) < 5 →
      g.mergeStep = { g with
        x := targetC, y := targetC, gridX := ⌊x1 / TILE_SIZE⌋,
        gridY := ⌊y1 / TILE_SIZE⌋, merged := true, direction := none }) ∧
    (¬ hypot (x1 - targetC) (y1 - targetC) < 5 →
      g.mergeStep = { g with
        x := x1, y := y1, gridX := ⌊x1 / TILE_SIZE⌋,
        gridY := ⌊y1 / TILE_SIZE⌋ }) := by
  subst htc hdC hx1e hy1e
  set targetC : ℝ := 9 * TILE_SIZE + TILE_SIZE / 2 with htc
  have hz : ¬(targetC - g.x = 0 ∧ targetC - g.y = 0) := by
    rintro ⟨h1, h2⟩
    exact hne ⟨by linarith, by linarith⟩
  have hcos := cos_atan2 (targetC - g.y) (targetC - g.x) hz
  have hsin := sin_atan2 (targetC - g.y) (targetC - g.x)
  have hdpos := hypot_pos _ _ hz
  have hdne : hypot (targetC - g.x) (targetC - g.y) ≠ 0 := ne_of_gt hdpos
  have hd2 : hypot (targetC - g.x) (targetC - g.y) ^ 2
      = (targetC - g.x) ^ 2 + (targetC - g.y) ^ 2 := sq_hypot _ _
  refine ⟨?_, ?_, ?_⟩
  · field_simp
    linarith [hd2, sq_nonneg (targetC - g.x), sq_nonneg (targetC - g.y)]
  · intro hlt
    unfold Ghost.mergeStep
    dsimp only
    rw [hcos, hsin, hs]
    rw [if_pos hlt]
  · intro hge
    unfold Ghost.mergeStep
    dsimp only
    rw [hcos, hsin, hs]
    rw [if_neg hge]

/-- CLAIM C1: in any step in which the cumulative score is at least 1500
(in particular the first), every ghost's `isMerging` flag is true after its
tick — a broadcast, since the per-ghost loop issues the same check for
each ghost of the tick; from then on a not-yet-merged ghost's update is
exactly the convergence step at speed 3 (the map — i.e. the walls — and
the random draws are ignored), which moves it exactly 3 units along the
straight Euclidean line toward the maze centre, and latches `merged` —
snapping the position exactly to the centre and clearing the direction —
exactly when the Euclidean distance to the centre falls below 5 units. -/
theorem claim_C1_merge_machine :
    (∀ (m : List (List Tile)) (score : ℕ) (r : ℝ × ℝ) (g : Ghost),
      1500 ≤ score → (ghostTick m score r g).isMerging = true) ∧
    (∀ (g : Ghost) (m m2 : List (List Tile)) (r1 r2 r3 r4 : ℝ),
      g.isMerging = true → g.merged = false →
      g.updateAI m r1 r2 = Ghost.mergeStep { g with speed := 3 } ∧
      g.updateAI m r1 r2 = g.updateAI m2 r3 r4) ∧
    (∀ (g : Ghost) (targetC dC x1 y1 : ℝ),
      targetC = 9 * TILE_SIZE + TILE_SIZE / 2 →
      dC = hypot (targetC - g.x) (targetC - g.y) →
      x1 = g.x + (targetC - g.x) / dC * 3 →
      y1 = g.y + (targetC - g.y) / dC * 3 →
      g.speed = 3 → ¬(g.x = targetC ∧ g.y = targetC) →
      (x1 - g.x) ^ 2 + (y1 - g.y) ^ 2 = 3 ^ 2 ∧
      (hypot (x1 - targetC) (y1 - targetC) < 5 →
        g.mergeStep = { g with
          x := targetC, y := targetC, gridX := ⌊x1 / TILE_SIZE⌋,
          gridY := ⌊y1 / TILE_SIZE⌋, merged := true, direction := none }) ∧
      (¬ hypot (x1 - targetC) (y1 - targetC) < 5 →
        g.mergeStep = { g with
          x := x1, y := y1, gridX := ⌊x1 / TILE_SIZE⌋,
          gridY := ⌊y1 / TILE_SIZE⌋ })) := by
  refine ⟨ghostTick_isMerging, ?_, ?_⟩
  · intro g m m2 r1 r2 r3 r4 hmg hm
    refine ⟨updateAI_merging g m r1 r2 hmg hm, ?_⟩
    rw [updateAI_merging g m r1 r2 hmg hm, updateAI_merging g m2 r3 r4 hmg hm]
  · intro g targetC dC x1 y1 htc hdC hx1e hy1e hs hne
    exact mergeStep_spec g targetC dC x1 y1 htc hdC hx1e hy1e hs hne

/-- A concrete merging ghost 4 units above the maze centre (speed field
still 2: `updateAI` raises it to 3). -/
noncomputable def c1g : Ghost := ⟨⟨304, 308, 9, 9, some Dir.UP, none, 2⟩, true, false⟩

/-- The same ghost with its speed already raised to 3, as `mergeStep`
receives it. -/
noncomputable def c1g3 : Ghost := ⟨⟨304, 308, 9, 9, some Dir.UP, none, 3⟩, true, false⟩

theorem claim_C1_witness :
    (ghostTick [] 1500 (0, 0) c1g).isMerging = true ∧
    c1g.updateAI [] 0 0 = Ghost.mergeStep { c1g with speed := 3 } ∧
    c1g3.mergeStep = { c1g3 with
      x := (304 : ℝ), y := (304 : ℝ), gridX := 9, gridY := 9,
      merged := true, direction := none } := by
  have h1 := claim_C1_merge_machine.1 [] 1500 (0, 0) c1g (le_refl 1500)
  have h2 := (claim_C1_merge_machine.2.1 c1g [] [] 0 0 0 0 rfl rfl).1
  have hd : (4 : ℝ) = hypot (304 - c1g3.x) (304 - c1g3.y) := by
    have : hypot (304 - c1g3.x) (304 - c1g3.y) = 4 := by
      apply hypot_eval _ _ _ (by norm_num)
      show ((304 : ℝ) - 304) ^ 2 + ((304 : ℝ) - 308) ^ 2 = 4 ^ 2
      norm_num
    rw [this]
  have h3 := claim_C1_merge_machine.2.2 c1g3 304 4 304 305
    (by rw [TILE_SIZE]; norm_num) hd
    (by show (304 : ℝ) = 304 + (304 - 304) / 4 * 3; norm_num)
    (by show (305 : ℝ) = 308 + (304 - 308) / 4 * 3; norm_num)
    rfl
    (by norm_num [c1g3])
  have hlt : hypot ((304 : ℝ) - 304) ((305 : ℝ) - 304) < 5 := by
    rw [hypot_eval _ _ 1 (by norm_num) (by norm_num)]
    norm_num
  refine ⟨h1, h2, ?_⟩
  rw [h3.2.1 hlt]
  norm_num [c1g3, TILE_SIZE, Ghost.mk.injEq, Entity.mk.injEq]

/-! ## Roaming-ghost direction choice (claim C5) -/

lemma moveActive_direction (g1 : Ghost) : g1.moveActive.direction = g1.direction := by
  unfold Ghost.moveActive
  rcases hd : g1.direction with _ | d
  · exact hd
  · exact hd

lemma isReverse_self (d : Dir) : isReverse (some d) d = false := by
  cases d <;> rfl

/-- Membership in the candidate set, unfolded to the claim's wording. -/
lemma mem_availableDirs (g : Ghost) (m : List (List Tile)) (d : Dir) :
    d ∈ g.availableDirs m ↔
      (g.canMove (some d) m = true ∧
        (isReverse g.direction d = false ∨ (g.legalDirs m).length = 1)) := by
  constructor
  · intro hd
    rw [Ghost.availableDirs, List.mem_filter] at hd
    obtain ⟨-, hp⟩ := hd
    simp only [Bool.and_eq_true, Bool.or_eq_true, Bool.not_eq_true', beq_iff_eq] at hp
    exact ⟨hp.1, hp.2⟩
  · rintro ⟨h1, h2⟩
    rw [Ghost.availableDirs, List.mem_filter]
    refine ⟨by cases d <;> simp [dirsList], ?_⟩
    simp only [Bool.and_eq_true, Bool.or_eq_true, Bool.not_eq_true', beq_iff_eq]
    exact ⟨h1, h2⟩

/-- Snapping to the centre and changing the speed leaves the candidate
machinery (which reads only the grid cell and the direction) unchanged. -/
lemma availableDirs_snap (g : Ghost) (c1 c2 sp : ℝ) (m : List (List Tile)) :
    (({ g with x := c1, y := c2, speed := sp } : Ghost)).availableDirs m
      = g.availableDirs m := rfl

lemma legalDirs_snap (g : Ghost) (c1 c2 sp : ℝ) (m : List (List Tile)) :
    (({ g with x := c1, y := c2, speed := sp } : Ghost)).legalDirs m = g.legalDirs m := rfl

/-- After a roaming update the direction is either unchanged or read off
the candidate list at some index. -/
lemma updateAI_direction_cases (g : Ghost) (m : List (List Tile)) (r1 r2 : ℝ)
    (hm : g.merged = false) (hmg : g.isMerging = false) :
    (g.updateAI m r1 r2).direction = g.direction ∨
    ∃ i : ℕ, (g.updateAI m r1 r2).direction = (g.availableDirs m).get? i := by
  unfold Ghost.updateAI
  simp only [hm, hmg, Bool.false_eq_true, if_false]
  rw [moveActive_direction]
  split
  case isTrue hc =>
    split
    case isTrue ha =>
      split
      case isTrue hr => exact Or.inl rfl
      case isFalse hr => exact Or.inr ⟨_, rfl⟩
    case isFalse ha => exact Or.inl rfl
  case isFalse hc => exact Or.inl rfl

/-- CLAIM C5: a direction is a candidate iff it passes `canMove` and is
either not the reverse of the current direction or the sole legal option;
consequently a roaming (non-merging, non-merged) ghost never ends an
update with the exact reverse of its previous direction adopted unless
that reverse is the only legal direction from its cell (a dead end). -/
theorem claim_C5_no_reversal :
    (∀ (g : Ghost) (m : List (List Tile)) (d : Dir),
      d ∈ g.availableDirs m ↔
        (g.canMove (some d) m = true ∧
          (isReverse g.direction d = false ∨ (g.legalDirs m).length = 1))) ∧
    (∀ (g : Ghost) (m : List (List Tile)) (r1 r2 : ℝ) (d : Dir),
      g.merged = false → g.isMerging = false →
      (g.updateAI m r1 r2).direction = some d →
      isReverse g.direction d = true →
      (g.legalDirs m).length = 1) := by
  refine ⟨mem_availableDirs, ?_⟩
  intro g m r1 r2 d hm hmg hdir hrev
  rcases updateAI_direction_cases g m r1 r2 hm hmg with hsame | ⟨i, hi⟩
  · have hgd : g.direction = some d := by rw [← hsame, hdir]
    rw [hgd, isReverse_self] at hrev
    exact absurd hrev (by simp)
  · have hget : (g.availableDirs m).get? i = some d := by rw [← hi, hdir]
    have hmem : d ∈ g.availableDirs m := List.get?_mem hget
    rcases (mem_availableDirs g m d).mp hmem with ⟨-, h2 | h2⟩
    · rw [hrev] at h2
      exact absurd h2 (by simp)
    · exact h2

/-- A 3x3 maze whose middle row is a dead-end corridor open only to the
right of the centre cell. -/
def c5m : List (List Tile) :=
  [[Tile.WALL, Tile.WALL, Tile.WALL],
   [Tile.WALL, Tile.EMPTY, Tile.EMPTY],
   [Tile.WALL, Tile.WALL, Tile.WALL]]

/-- A roaming ghost at the centre of the dead-end cell `(1, 1)`, moving
`LEFT` into the dead end. -/
noncomputable def c5g : Ghost := ⟨⟨48, 48, 1, 1, some Dir.LEFT, none, 2⟩, false, false⟩

/-- The candidate set reads only the grid cell and the direction: it is
unchanged by the snap (which rewrites position, speed and the latches). -/
lemma snapG_availableDirs (x0 y0 sp : ℝ) (im mg : Bool) (g : Ghost) (m : List (List Tile)) :
    (Ghost.mk ⟨x0, y0, g.gridX, g.gridY, g.direction, g.nextDirection, sp⟩ im mg).availableDirs m
      = g.availableDirs m := rfl

/-- Likewise `canMove` reads only the grid cell. -/
lemma snapE_canMove (x0 y0 sp : ℝ) (e : Entity) (m : List (List Tile)) (dir : Option Dir) :
    Entity.canMove ⟨x0, y0, e.gridX, e.gridY, e.direction, e.nextDirection, sp⟩ dir m
      = e.canMove dir m := rfl

/-- Evaluation rule for the roaming decision: at the tile centre, with
candidates available and the retain branch not taken, the ghost adopts
`available[Math.floor(r2 * available.length)]`. -/
lemma updateAI_pick (g : Ghost) (m : List (List Tile)) (r1 r2 : ℝ)
    (hm : g.merged = false) (hmg : g.isMerging = false)
    (hc : |g.x - ((g.gridX : ℝ) * TILE_SIZE + TILE_SIZE / 2)| < 2 ∧
      |g.y - ((g.gridY : ℝ) * TILE_SIZE + TILE_SIZE / 2)| < 2)
    (hlen : 0 < (g.availableDirs m).length)
    (hret : ¬(g.direction ≠ none ∧ g.canMove g.direction m = true ∧ r1 < 0.7)) :
    (g.updateAI m r1 r2).direction
      = (g.availableDirs m).get? (⌊r2 * ((g.availableDirs m).length : ℝ)⌋).toNat := by
  unfold Ghost.updateAI
  simp only [hm, hmg, Bool.false_eq_true, if_false]
  rw [moveActive_direction]
  rw [if_pos (Or.inl hc)]
  simp only [snapG_availableDirs, snapE_canMove]
  rw [if_pos hlen]
  rw [if_neg hret]

theorem claim_C5_witness :
    (c5g.updateAI c5m 0 0).direction = some Dir.RIGHT ∧
    isReverse c5g.direction Dir.RIGHT = true ∧
    (c5g.legalDirs c5m).length = 1 := by
  have hav : c5g.availableDirs c5m = [Dir.RIGHT] := by decide
  have hdir : (c5g.updateAI c5m 0 0).direction = some Dir.RIGHT := by
    rw [updateAI_pick c5g c5m 0 0 rfl rfl
      (by constructor <;> norm_num [c5g, TILE_SIZE])
      (by rw [hav]; decide)
      (by rintro ⟨-, hcm, -⟩; exact absurd hcm (by decide))]
    rw [hav]
    norm_num
  exact ⟨hdir, rfl,
    claim_C5_no_reversal.2 c5g c5m 0 0 Dir.RIGHT rfl rfl hdir rfl⟩

/-! ## Per-ghost collision in the game step (claim C7) -/

lemma ite_lost_iff (c : Prop) [Decidable c] (ph : Phase) :
    (if c then Phase.LOST else ph) = Phase.LOST ↔ (ph = Phase.LOST ∨ c) := by
  split
  case isTrue h => simp [h]
  case isFalse h => simp [h]

/-- Closed form of the ghost loop: the output list is the input list with
each ghost put through its tick, and the phase is `LOST` exactly when it
already was or some updated ghost registers a hit. -/
lemma ghostFold_spec (m : List (List Tile)) (pac : Entity) (score : ℕ) (rs : ℕ → ℝ × ℝ) :
    ∀ (l : List (ℕ × Ghost)) (gs : List Ghost) (ph : Phase),
      ghostFold m pac score rs l (gs, ph)
        = (gs ++ l.map (fun q => ghostTick m score (rs q.1) q.2),
           if ∃ q ∈ l, ghostHit pac (ghostTick m score (rs q.1) q.2) then Phase.LOST else ph) := by
  intro l
  induction l with
  | nil => intro gs ph; simp [ghostFold]
  | cons hd tl ih =>
    intro gs ph
    rcases hd with ⟨i, g⟩
    simp only [ghostFold]
    rw [ih]
    refine Prod.ext ?_ ?_
    · simp
    · dsimp only
      by_cases h1 : ghostHit pac (ghostTick m score (rs i) g)
      · by_cases h2 : ∃ q ∈ tl, ghostHit pac (ghostTick m score (rs q.1) q.2)
        · simp [h1, h2]
        · simp [h1, h2]
      · by_cases h2 : ∃ q ∈ tl, ghostHit pac (ghostTick m score (rs q.1) q.2)
        · simp [h1, h2]
        · simp [h1, h2]

/-- CLAIM C7: in every step each ghost in order is updated, and the phase
becomes `LOST` exactly when it already was `LOST` or some updated ghost is
simultaneously not merged, within `TILE_SIZE / 1.5` (two-thirds of a tile)
of the player, and not merging — so the test is suppressed while
`isMerging` is true, and merged ghosts are never collision-tested. -/
theorem claim_C7_ghost_collision :
    ∀ (rs : ℕ → ℝ × ℝ) (st : GameState),
      (ghostStage rs st).ghosts
        = st.ghosts.enum.map (fun q => ghostTick st.map st.score (rs q.1) q.2) ∧
      ((ghostStage rs st).phase = Phase.LOST ↔
        (st.phase = Phase.LOST ∨
          ∃ g1 ∈ (ghostStage rs st).ghosts, g1.merged = false ∧
            hypot (st.pacman.x - g1.x) (st.pacman.y - g1.y) < TILE_SIZE / 1.5 ∧
            g1.isMerging = false)) := by
  intro rs st
  have h1 : (ghostStage rs st).ghosts
      = st.ghosts.enum.map (fun q => ghostTick st.map st.score (rs q.1) q.2) := by
    unfold ghostStage
    rw [ghostFold_spec]
    simp
  have h2 : (ghostStage rs st).phase
      = if ∃ q ∈ st.ghosts.enum, ghostHit st.pacman (ghostTick st.map st.score (rs q.1) q.2)
        then Phase.LOST else st.phase := by
    unfold ghostStage
    rw [ghostFold_spec]
  refine ⟨h1, ?_⟩
  rw [h1, h2, ite_lost_iff]
  apply or_congr Iff.rfl
  constructor
  · rintro ⟨q, hq, hhit⟩
    exact ⟨_, List.mem_map.mpr ⟨q, hq, rfl⟩, hhit⟩
  · rintro ⟨g1, hg1, hhit⟩
    rcases List.mem_map.mp hg1 with ⟨q, hq, rfl⟩
    exact ⟨q, hq, hhit⟩

/-! ## Pellet consumption and the win checks (claim C6) -/

lemma ghostStage_score (rs : ℕ → ℝ × ℝ) (st : GameState) : (ghostStage rs st).score = st.score := rfl

lemma ghostStage_map (rs : ℕ → ℝ × ℝ) (st : GameState) : (ghostStage rs st).map = st.map := rfl

lemma ghostStage_pellets (rs : ℕ → ℝ × ℝ) (st : GameState) :
    (ghostStage rs st).pelletsLeft = st.pelletsLeft := rfl

lemma ultimateStage_score (u1 u2 : ℝ) (st : GameState) : (ultimateStage u1 u2 st).score = st.score := by
  unfold ultimateStage
  dsimp only
  split <;> rfl

lemma ultimateStage_map (u1 u2 : ℝ) (st : GameState) : (ultimateStage u1 u2 st).map = st.map := by
  unfold ultimateStage
  dsimp only
  split <;> rfl

lemma ultimateStage_pellets (u1 u2 : ℝ) (st : GameState) :
    (ultimateStage u1 u2 st).pelletsLeft = st.pelletsLeft := by
  unfold ultimateStage
  dsimp only
  split <;> rfl

/-- A cell that reads as a non-wall tile is genuinely in range on both
axes (out-of-range reads default to `WALL`). -/
lemma tget_bounds (m : List (List Tile)) (gy gx : ℤ) (h : tget m gy gx ≠ Tile.WALL) :
    gy.toNat < m.length ∧ gx.toNat < (m.getD gy.toNat []).length := by
  unfold tget at h
  constructor
  · by_contra hy
    rw [List.getD_eq_default _ _ (le_of_not_lt hy)] at h
    simp at h
  · by_contra hx
    rw [List.getD_eq_default _ _ (le_of_not_lt hx)] at h
    exact h rfl

lemma tget_setTile_self (m : List (List Tile)) (gy gx : ℤ) (t : Tile)
    (hy : gy.toNat < m.length) (hx : gx.toNat < (m.getD gy.toNat []).length) :
    tget (setTile m gy gx t) gy gx = t := by
  unfold tget setTile
  have hrow : (m.set gy.toNat ((m.getD gy.toNat []).set gx.toNat t)).getD gy.toNat []
      = (m.getD gy.toNat []).set gx.toNat t := by
    rw [List.getD_eq_getElem?_getD, List.getElem?_set_self hy, Option.getD_some]
  rw [hrow, List.getD_eq_getElem?_getD, List.getElem?_set_self hx, Option.getD_some]

/-- Closed form of the pellet stage on a pellet cell. -/
lemma eatStage_eq (st : GameState)
    (hp : tget st.map st.pacman.gridY st.pacman.gridX = Tile.PELLET) :
    eatStage st = { st with
      map := setTile st.map st.pacman.gridY st.pacman.gridX Tile.EMPTY,
      score := st.score + 10,
      pelletsLeft := st.pelletsLeft - 1,
      phase := if st.pelletsLeft - 1 = 0 then Phase.WON
               else if 1800 ≤ st.score + 10 then Phase.WON else st.phase } := by
  unfold eatStage
  rw [if_pos hp]

/-- CLAIM C6: in a step in which the player's new cell holds a `PELLET`,
the step adds exactly 10 to the score, subtracts exactly 1 from the
remaining-pellet count and empties the cell; and the pellet stage sets the
phase to `WON` exactly when the updated score is at least 1800, or the
updated pellet count is 0 (either alone suffices — in particular pellets
reaching 0 wins with a score below 1800), or the phase already was `WON`.
(The later ghost stages of the same step may still overwrite `WON` with
`LOST`; they never touch score, pellets or the grid.) -/
theorem claim_C6_pellet_step :
    ∀ (st : GameState) (p1 : Entity) (rs : ℕ → ℝ × ℝ) (u1 u2 : ℝ),
      p1 = st.pacman.updatePosition st.map →
      tget st.map p1.gridY p1.gridX = Tile.PELLET →
      (step rs u1 u2 st).score = st.score + 10 ∧
      (step rs u1 u2 st).pelletsLeft = st.pelletsLeft - 1 ∧
      tget (step rs u1 u2 st).map p1.gridY p1.gridX = Tile.EMPTY ∧
      ((eatStage { st with pacman := p1 }).phase = Phase.WON ↔
        (1800 ≤ st.score + 10 ∨ st.pelletsLeft - 1 = 0 ∨ st.phase = Phase.WON)) := by
  intro st p1 rs u1 u2 hp1 hp
  have hst' : tget ({ st with pacman := p1 } : GameState).map
      ({ st with pacman := p1 } : GameState).pacman.gridY
      ({ st with pacman := p1 } : GameState).pacman.gridX = Tile.PELLET := hp
  have hee := eatStage_eq { st with pacman := p1 } hst'
  have hstep : step rs u1 u2 st
      = ultimateStage u1 u2 (ghostStage rs (eatStage { st with pacman := p1 })) := by
    rw [step, hp1]
  have hb := tget_bounds st.map p1.gridY p1.gridX (by rw [hp]; decide)
  refine ⟨?_, ?_, ?_, ?_⟩
  · rw [hstep, ultimateStage_score, ghostStage_score, hee]
  · rw [hstep, ultimateStage_pellets, ghostStage_pellets, hee]
  · rw [hstep, ultimateStage_map, ghostStage_map, hee]
    exact tget_setTile_self st.map p1.gridY p1.gridX Tile.EMPTY hb.1 hb.2
  · rw [hee]
    show (if st.pelletsLeft - 1 = 0 then Phase.WON
      else if 1800 ≤ st.score + 10 then Phase.WON else st.phase) = Phase.WON ↔ _
    by_cases h1 : st.pelletsLeft - 1 = 0
    · simp [h1]
    · by_cases h2 : 1800 ≤ st.score + 10
      · simp [h1, h2]
      · simp [h1, h2]

/-- An idle player (no active or buffered direction) keeps its grid cell
through `updatePosition`. -/
lemma updatePosition_idle (e : Entity) (m : List (List Tile))
    (hd : e.direction = none) (hnd : e.nextDirection = none) :
    (e.updatePosition m).gridX = e.gridX ∧ (e.updatePosition m).gridY = e.gridY := by
  unfold Entity.updatePosition
  dsimp only
  split
  case h_1 heq =>
    split
    case isTrue hc =>
      split
      case isTrue h => exact ⟨rfl, rfl⟩
      case isFalse h =>
        split
        case isTrue h2 => exact ⟨rfl, rfl⟩
        case isFalse h2 => exact ⟨rfl, rfl⟩
    case isFalse hc => exact ⟨rfl, rfl⟩
  case h_2 d heq =>
    exfalso
    split at heq
    case isTrue hc =>
      split at heq
      case isTrue h =>
        have h2 : e.nextDirection = some d := heq
        rw [hnd] at h2
        exact absurd h2 (by simp)
      case isFalse h =>
        split at heq
        case isTrue h2 =>
          have h3 : (none : Option Dir) = some d := heq
          exact absurd h3 (by simp)
        case isFalse h2 =>
          have h3 : e.direction = some d := heq
          rw [hd] at h3
          exact absurd h3 (by simp)
    case isFalse hc =>
      have h3 : e.direction = some d := heq
      rw [hd] at h3
      exact absurd h3 (by simp)

/-- A one-cell layout holding a single pellet. -/
def c6m : List (List Tile) := [[Tile.PELLET]]

/-- An idle player at the centre of the pellet cell. -/
noncomputable def c6pac : Entity := ⟨16, 16, 0, 0, none, none, 2⟩

/-- A playing state with one pellet left and no ghosts. -/
noncomputable def c6st : GameState := ⟨c6m, c6pac, [], none, 0, 1, Phase.PLAYING⟩

theorem claim_C6_witness :
    (step (fun _ => (0, 0)) 0 0 c6st).score = c6st.score + 10 ∧
    (step (fun _ => (0, 0)) 0 0 c6st).pelletsLeft = c6st.pelletsLeft - 1 ∧
    tget (step (fun _ => (0, 0)) 0 0 c6st).map (c6st.pacman.updatePosition c6st.map).gridY
      (c6st.pacman.updatePosition c6st.map).gridX = Tile.EMPTY ∧
    ((eatStage { c6st with pacman := c6st.pacman.updatePosition c6st.map }).phase = Phase.WON ↔
      (1800 ≤ c6st.score + 10 ∨ c6st.pelletsLeft - 1 = 0 ∨ c6st.phase = Phase.WON)) := by
  apply claim_C6_pellet_step c6st (c6st.pacman.updatePosition c6st.map) (fun _ => (0, 0)) 0 0 rfl
  rw [(updatePosition_idle c6st.pacman c6st.map rfl rfl).1,
    (updatePosition_idle c6st.pacman c6st.map rfl rfl).2]
  decide

/-! ## The ultimate pursuer's collision radius (claim C2) -/

/-- CLAIM C2, amended: while all ghosts are merged, the step's ultimate
phase updates the pursuer (creating it at the centre cell on first need)
and the phase becomes `LOST` exactly when it already was, or the player is
within `TILE_SIZE / 1.2` (five-sixths of a tile; NOT the claimed
`1.2 * TILE_SIZE`) of the updated pursuer. -/
theorem claim_C2_amended :
    ∀ (u1 u2 : ℝ) (st : GameState) (ug1 : Ghost),
      allMerged st = true →
      ug1 = (st.ultimateGhost.getD (UltimateGhost.make 9 9)).updateChasingAI
        st.map st.pacman u1 u2 →
      (ultimateStage u1 u2 st).ultimateGhost = some ug1 ∧
      ((ultimateStage u1 u2 st).phase = Phase.LOST ↔
        (st.phase = Phase.LOST ∨
          hypot (st.pacman.x - ug1.x) (st.pacman.y - ug1.y) < TILE_SIZE / 1.2)) := by
  intro u1 u2 st ug1 hall hug
  subst hug
  unfold ultimateStage
  rw [if_pos hall]
  dsimp only
  exact ⟨rfl, ite_lost_iff _ _⟩

/-- The concrete pursuer: mid-edge in cell `(12, 9)`, moving `LEFT`. -/
noncomputable def c2ug : Ghost := ⟨⟨390, 304, 12, 9, some Dir.LEFT, none, 3⟩, false, true⟩

/-- The pursuer after one chasing update: moved 3 units left. -/
noncomputable def c2ug1 : Ghost := ⟨⟨387, 304, 12, 9, some Dir.LEFT, none, 3⟩, false, true⟩

/-- A merged ghost parked at the centre. -/
noncomputable def c2gm : Ghost := ⟨⟨304, 304, 9, 9, none, none, 3⟩, true, true⟩

/-- The player 32 units (exactly one tile) left of the updated pursuer. -/
noncomputable def c2pac : Entity := ⟨355, 304, 11, 9, none, none, 2⟩

/-- All-merged playing state with the pursuer present. -/
noncomputable def c2st : GameState := ⟨[], c2pac, [c2gm], some c2ug, 1600, 0, Phase.PLAYING⟩

theorem claim_C2_counterexample :
    allMerged c2st = true ∧
    (ultimateStage 0 0 c2st).ultimateGhost = some c2ug1 ∧
    hypot (c2st.pacman.x - c2ug1.x) (c2st.pacman.y - c2ug1.y) < 1.2 * TILE_SIZE ∧
    (ultimateStage 0 0 c2st).phase = Phase.PLAYING := by
  have hall : allMerged c2st = true := by decide
  have hnc : ¬((|c2ug.x - ((c2ug.gridX : ℝ) * TILE_SIZE + TILE_SIZE / 2)| < c2ug.speed ∧
      |c2ug.y - ((c2ug.gridY : ℝ) * TILE_SIZE + TILE_SIZE / 2)| < c2ug.speed) ∨
      c2ug.direction = none) := by
    rw [not_or]
    constructor
    · rintro ⟨h1, -⟩
      rw [show c2ug.x - ((c2ug.gridX : ℝ) * TILE_SIZE + TILE_SIZE / 2) = -10 by
        norm_num [c2ug, TILE_SIZE]] at h1
      rw [abs_neg, abs_of_pos (by norm_num : (0:ℝ) < 10)] at h1
      exact absurd h1 (by norm_num [c2ug])
    · simp [c2ug]
  have hchase : c2ug.updateChasingAI c2st.map c2st.pacman 0 0 = c2ug1 := by
    unfold Ghost.updateChasingAI
    dsimp only
    rw [if_neg hnc]
    unfold Ghost.moveActive
    simp only [c2ug, c2ug1, Entity.applyMove, Dir.dx, Dir.dy]
    norm_num [TILE_SIZE, Ghost.mk.injEq, Entity.mk.injEq]
  have hd32 : hypot (c2st.pacman.x - c2ug1.x) (c2st.pacman.y - c2ug1.y) = 32 := by
    apply hypot_eval _ _ _ (by norm_num)
    show ((355 : ℝ) - 387) ^ 2 + ((304 : ℝ) - 304) ^ 2 = 32 ^ 2
    norm_num
  have hstage : ultimateStage 0 0 c2st
      = { c2st with ultimateGhost := some c2ug1, phase := Phase.PLAYING } := by
    unfold ultimateStage
    rw [if_pos hall]
    dsimp only
    rw [show c2st.ultimateGhost.getD (UltimateGhost.make 9 9) = c2ug from rfl]
    rw [hchase]
    rw [if_neg (by rw [hd32, TILE_SIZE]; norm_num)]
    rfl
  refine ⟨hall, ?_, ?_, ?_⟩
  · rw [hstage]
  · rw [hd32, TILE_SIZE]
    norm_num
  · rw [hstage]

theorem claim_C2_witness :
    (ultimateStage 0 0 c2st).ultimateGhost
      = some ((c2st.ultimateGhost.getD (UltimateGhost.make 9 9)).updateChasingAI
          c2st.map c2st.pacman 0 0) ∧
    ((ultimateStage 0 0 c2st).phase = Phase.LOST ↔
      (c2st.phase = Phase.LOST ∨
        hypot (c2st.pacman.x - ((c2st.ultimateGhost.getD (UltimateGhost.make 9 9)).updateChasingAI
            c2st.map c2st.pacman 0 0).x)
          (c2st.pacman.y - ((c2st.ultimateGhost.getD (UltimateGhost.make 9 9)).updateChasingAI
            c2st.map c2st.pacman 0 0).y) < TILE_SIZE / 1.2)) :=
  claim_C2_amended 0 0 c2st _ (by decide) rfl

/-! ## Missing PLAYER_START at init (claim C3) -/

lemma foldl_pacmanStart (cells : List (ℕ × ℕ × Tile)) (acc : ℤ × ℤ)
    (h : ∀ c ∈ cells, c.2.2 ≠ Tile.PACMAN_START) :
    cells.foldl
      (fun acc c => if c.2.2 = Tile.PACMAN_START then ((c.1 : ℤ), (c.2.1 : ℤ)) else acc) acc
      = acc := by
  induction cells generalizing acc with
  | nil => rfl
  | cons hd tl ih =>
    rw [List.foldl_cons, if_neg (h hd (List.mem_cons_self _ _))]
    exact ih acc (fun c hc => h c (List.mem_cons_of_mem _ hc))

/-- CLAIM C3, counterexample: on the one-cell layout `[[EMPTY]]` — which
contains no `PACMAN_START` — `initGame` still produces a `PLAYING` state,
with the player silently defaulted to grid cell `(9, 15)`. -/
theorem claim_C3_counterexample :
    ([[Tile.EMPTY]].all (fun row => row.all (fun t => t != Tile.PACMAN_START)) = true) ∧
    (initGame [[Tile.EMPTY]]).phase = Phase.PLAYING ∧
    (initGame [[Tile.EMPTY]]).pacman.gridX = 9 ∧
    (initGame [[Tile.EMPTY]]).pacman.gridY = 15 := by
  exact ⟨by decide, rfl, rfl, rfl⟩

/-- CLAIM C3, amended: `initGame` never fails; on every layout without a
`PACMAN_START` tile it silently defaults the player to grid cell `(9, 15)`
(position at that cell's centre) and still produces a `PLAYING` state. -/
theorem claim_C3_amended :
    ∀ M : List (List Tile),
      (∀ c ∈ cellsOf M, c.2.2 ≠ Tile.PACMAN_START) →
      (initGame M).phase = Phase.PLAYING ∧
      (initGame M).pacman.gridX = 9 ∧ (initGame M).pacman.gridY = 15 ∧
      (initGame M).pacman.x = 9 * TILE_SIZE + TILE_SIZE / 2 ∧
      (initGame M).pacman.y = 15 * TILE_SIZE + TILE_SIZE / 2 := by
  intro M h
  unfold initGame
  dsimp only
  rw [foldl_pacmanStart _ _ h]
  refine ⟨rfl, rfl, rfl, ?_, ?_⟩
  · show ((9 : ℤ) : ℝ) * TILE_SIZE + TILE_SIZE / 2 = 9 * TILE_SIZE + TILE_SIZE / 2
    norm_num
  · show ((15 : ℤ) : ℝ) * TILE_SIZE + TILE_SIZE / 2 = 15 * TILE_SIZE + TILE_SIZE / 2
    norm_num

theorem claim_C3_witness :
    (initGame [[Tile.GHOST_START]]).phase = Phase.PLAYING ∧
    (initGame [[Tile.GHOST_START]]).pacman.gridX = 9 ∧
    (initGame [[Tile.GHOST_START]]).pacman.gridY = 15 ∧
    (initGame [[Tile.GHOST_START]]).pacman.x = 9 * TILE_SIZE + TILE_SIZE / 2 ∧
    (initGame [[Tile.GHOST_START]]).pacman.y = 15 * TILE_SIZE + TILE_SIZE / 2 :=
  claim_C3_amended [[Tile.GHOST_START]] (by decide)

/-! ## Key handling vs. phase (claim C8) -/

/-- A player entity as it stands after a finished game. -/
noncomputable def c8pac : Entity := ⟨304, 304, 9, 9, none, none, 2⟩

/-- An app state in the `WON` phase with the player entity still present. -/
noncomputable def c8s : AppState := ⟨Phase.WON, some c8pac⟩

/-- CLAIM C8, counterexample: in the `WON` phase (not `PLAYING`), an arrow
key still mutates the state — the handler never consults the phase. -/
theorem claim_C8_counterexample :
    c8s.phase ≠ Phase.PLAYING ∧ appHandleKey Key.arrowUp c8s ≠ c8s := by
  constructor
  · decide
  · intro h
    have h2 := congrArg (fun s => s.pacman) h
    have h3 : (some ({ c8pac with nextDirection := some Dir.UP }) : Option Entity)
        = some c8pac := h2
    rw [Option.some_inj] at h3
    have h4 := congrArg Entity.nextDirection h3
    simp [c8pac] at h4

/-- CLAIM C8, amended: a requested direction updates the player's buffered
next-direction whenever the player entity exists — in every phase,
including `WON` and `LOST` — and is ignored only when no player entity
exists yet (before the first game, the only time `pacman` is null). -/
theorem claim_C8_amended :
    (∀ (s : AppState) (p : Entity),
      s.pacman = some p →
        appHandleKey Key.arrowUp s = ⟨s.phase, some { p with nextDirection := some Dir.UP }⟩ ∧
        appHandleKey Key.arrowDown s = ⟨s.phase, some { p with nextDirection := some Dir.DOWN }⟩ ∧
        appHandleKey Key.arrowLeft s = ⟨s.phase, some { p with nextDirection := some Dir.LEFT }⟩ ∧
        appHandleKey Key.arrowRight s
          = ⟨s.phase, some { p with nextDirection := some Dir.RIGHT }⟩) ∧
    (∀ (s : AppState) (k : Key), s.pacman = none → appHandleKey k s = s) := by
  constructor
  · intro s p hp
    refine ⟨?_, ?_, ?_, ?_⟩ <;>
      · unfold appHandleKey
        rw [hp]
        rfl
  · intro s k h
    cases s with
    | mk ph pc =>
      dsimp only at h
      subst h
      unfold appHandleKey
      rfl

theorem claim_C8_witness :
    appHandleKey Key.arrowUp c8s = ⟨c8s.phase, some { c8pac with nextDirection := some Dir.UP }⟩ ∧
    appHandleKey Key.other ⟨Phase.START, none⟩ = ⟨Phase.START, none⟩ :=
  ⟨(claim_C8_amended.1 c8s c8pac rfl).1,
    claim_C8_amended.2 ⟨Phase.START, none⟩ Key.other rfl⟩

/-! ## Pellet respawn (claim C9) -/

lemma shouldRespawn_pellet (orig : List (List Tile)) (px py : ℤ) (y x : ℕ) :
    shouldRespawn orig px py y x Tile.PELLET = false := by
  unfold shouldRespawn
  rw [show (Tile.PELLET == Tile.EMPTY) = false from rfl]
  simp

lemma shouldRespawn_wall (orig : List (List Tile)) (px py : ℤ) (y x : ℕ) :
    shouldRespawn orig px py y x Tile.WALL = false := by
  unfold shouldRespawn
  rw [show (Tile.WALL == Tile.EMPTY) = false from rfl]
  simp

lemma shouldRespawn_idem (orig : List (List Tile)) (px py : ℤ) (y x : ℕ) (t : Tile) :
    shouldRespawn orig px py y x
      (if shouldRespawn orig px py y x t = true then Tile.PELLET else t) = false := by
  by_cases h : shouldRespawn orig px py y x t = true
  · rw [if_pos h, shouldRespawn_pellet]
  · rw [if_neg h]
    simpa using h

lemma respawnRow_getD (orig : List (List Tile)) (px py : ℤ) (y : ℕ) :
    ∀ (l : List Tile) (x0 i : ℕ),
      (respawnRow orig px py y x0 l).getD i Tile.WALL
        = if shouldRespawn orig px py y (x0 + i) (l.getD i Tile.WALL) = true then Tile.PELLET
          else l.getD i Tile.WALL := by
  intro l
  induction l with
  | nil =>
    intro x0 i
    simp [respawnRow, shouldRespawn_wall]
  | cons t ts ih =>
    intro x0 i
    cases i with
    | zero => simp [respawnRow]
    | succ n =>
      simp only [respawnRow, List.getD_cons_succ]
      rw [ih (x0 + 1) n]
      have hx : x0 + 1 + n = x0 + (n + 1) := by omega
      rw [hx]

lemma respawnRows_getD (orig : List (List Tile)) (px py : ℤ) :
    ∀ (rows : List (List Tile)) (y0 j : ℕ),
      (respawnRows orig px py y0 rows).getD j []
        = respawnRow orig px py (y0 + j) 0 (rows.getD j []) := by
  intro rows
  induction rows with
  | nil =>
    intro y0 j
    simp [respawnRows, respawnRow]
  | cons r rs ih =>
    intro y0 j
    cases j with
    | zero => simp [respawnRows]
    | succ n =>
      simp only [respawnRows, List.getD_cons_succ]
      rw [ih (y0 + 1) n]
      have hy : y0 + 1 + n = y0 + (n + 1) := by omega
      rw [hy]

lemma respawn_tget (orig cur : List (List Tile)) (px py : ℤ) (y x : ℕ) :
    tget (respawnPellets orig cur px py).1 (y : ℤ) (x : ℤ)
      = if shouldRespawn orig px py y x (tget cur (y : ℤ) (x : ℤ)) = true then Tile.PELLET
        else tget cur (y : ℤ) (x : ℤ) := by
  unfold respawnPellets tget
  dsimp only
  rw [Int.toNat_natCast, Int.toNat_natCast]
  rw [respawnRows_getD, respawnRow_getD]
  simp

lemma respawnRow_idem (orig : List (List Tile)) (px py : ℤ) (y : ℕ) :
    ∀ (l : List Tile) (x0 : ℕ),
      respawnRow orig px py y x0 (respawnRow orig px py y x0 l)
        = respawnRow orig px py y x0 l := by
  intro l
  induction l with
  | nil => intro x0; rfl
  | cons t ts ih =>
    intro x0
    show respawnRow orig px py y x0
      ((if shouldRespawn orig px py y x0 t then Tile.PELLET else t) ::
        respawnRow orig px py y (x0 + 1) ts) = _
    rw [respawnRow]
    rw [if_neg (by rw [shouldRespawn_idem]; exact Bool.false_ne_true)]
    rw [ih (x0 + 1)]
    rfl

lemma respawnRowCount_idem (orig : List (List Tile)) (px py : ℤ) (y : ℕ) :
    ∀ (l : List Tile) (x0 : ℕ),
      respawnRowCount orig px py y x0 (respawnRow orig px py y x0 l) = 0 := by
  intro l
  induction l with
  | nil => intro x0; rfl
  | cons t ts ih =>
    intro x0
    show respawnRowCount orig px py y x0
      ((if shouldRespawn orig px py y x0 t then Tile.PELLET else t) ::
        respawnRow orig px py y (x0 + 1) ts) = 0
    rw [respawnRowCount]
    rw [if_neg (by rw [shouldRespawn_idem]; exact Bool.false_ne_true)]
    rw [ih (x0 + 1)]

lemma respawnRows_idem (orig : List (List Tile)) (px py : ℤ) :
    ∀ (rows : List (List Tile)) (y0 : ℕ),
      respawnRows orig px py y0 (respawnRows orig px py y0 rows)
        = respawnRows orig px py y0 rows := by
  intro rows
  induction rows with
  | nil => intro y0; rfl
  | cons r rs ih =>
    intro y0
    show respawnRows orig px py y0
      (respawnRow orig px py y0 0 r :: respawnRows orig px py (y0 + 1) rs) = _
    rw [respawnRows, respawnRow_idem, ih (y0 + 1)]
    rfl

lemma respawnRowsCount_idem (orig : List (List Tile)) (px py : ℤ) :
    ∀ (rows : List (List Tile)) (y0 : ℕ),
      respawnRowsCount orig px py y0 (respawnRows orig px py y0 rows) = 0 := by
  intro rows
  induction rows with
  | nil => intro y0; rfl
  | cons r rs ih =>
    intro y0
    show respawnRowsCount orig px py y0
      (respawnRow orig px py y0 0 r :: respawnRows orig px py (y0 + 1) rs) = 0
    rw [respawnRowsCount, respawnRowCount_idem, ih (y0 + 1)]

/-- The Bool respawn condition, in the claim's wording. -/
lemma shouldRespawn_iff (orig : List (List Tile)) (px py : ℤ) (y x : ℕ) (t : Tile) :
    shouldRespawn orig px py y x t = true ↔
      (tget orig (y : ℤ) (x : ℤ) = Tile.PELLET ∧ t = Tile.EMPTY ∧ ¬(px = (x : ℤ) ∧ py = (y : ℤ))) := by
  unfold shouldRespawn
  simp [and_assoc]
  tauto

/-- CLAIM C9: `respawnPellets` rewrites to `PELLET` exactly the cells that
are `PELLET` in the immutable original layout, `EMPTY` in the live grid and
not the player's cell, leaving every other cell unchanged; and running it
again immediately (same player cell, no intervening changes) mutates
nothing and reports a restored count of 0. -/
theorem claim_C9_respawn :
    ∀ (orig cur : List (List Tile)) (px py : ℤ),
      (∀ y x : ℕ,
        tget (respawnPellets orig cur px py).1 (y : ℤ) (x : ℤ)
          = if (tget orig (y : ℤ) (x : ℤ) = Tile.PELLET ∧ tget cur (y : ℤ) (x : ℤ) = Tile.EMPTY ∧
              ¬(px = (x : ℤ) ∧ py = (y : ℤ)))
            then Tile.PELLET else tget cur (y : ℤ) (x : ℤ)) ∧
      respawnPellets orig (respawnPellets orig cur px py).1 px py
        = ((respawnPellets orig cur px py).1, 0) := by
  intro orig cur px py
  constructor
  · intro y x
    rw [respawn_tget]
    simp only [shouldRespawn_iff]
  · unfold respawnPellets
    dsimp only
    rw [respawnRows_idem, respawnRowsCount_idem]

/-! ## The score invariant (claim C10) -/

lemma eatStage_score_cases (st : GameState) :
    (eatStage st).score = st.score ∨ (eatStage st).score = st.score + 10 := by
  unfold eatStage
  split
  case isTrue h => exact Or.inr rfl
  case isFalse h => exact Or.inl rfl

lemma step_score_cases (st : GameState) (rs : ℕ → ℝ × ℝ) (u1 u2 : ℝ) :
    (step rs u1 u2 st).score = st.score ∨ (step rs u1 u2 st).score = st.score + 10 := by
  rw [step, ultimateStage_score, ghostStage_score]
  exact eatStage_score_cases { st with pacman := st.pacman.updatePosition st.map }

lemma respawnStage_score (M : List (List Tile)) (st : GameState) :
    (respawnStage M st).score = st.score := by
  unfold respawnStage
  split <;> rfl

lemma keyStage_score (k : Key) (st : GameState) : (keyStage k st).score = st.score := rfl

lemma reachable_score_dvd (M : List (List Tile)) :
    ∀ st : GameState, Reachable M st → 10 ∣ st.score := by
  intro st h
  induction h with
  | init => exact ⟨0, rfl⟩
  | frame rs u1 u2 st1 h1 ih =>
    rcases step_score_cases st1 rs u1 u2 with h2 | h2 <;> rw [h2]
    · exact ih
    · exact Nat.dvd_add ih ⟨1, rfl⟩
  | respawn st1 h1 ih => rw [respawnStage_score]; exact ih
  | key k st1 h1 ih => rw [keyStage_score]; exact ih

/-- CLAIM C10: the score starts at 0, the only in-game mutation is +10 per
pellet, so within one game the score is a monotonically non-decreasing,
non-negative multiple of 10 (non-negativity is by the type `ℕ`, faithful
to the all-additive source), and the 1500 and 1800 thresholds are first
reached exactly at equality — a step never jumps over them. -/
theorem claim_C10_score_invariant :
    ∀ M : List (List Tile),
      (initGame M).score = 0 ∧
      (∀ (st : GameState) (rs : ℕ → ℝ × ℝ) (u1 u2 : ℝ),
        (step rs u1 u2 st).score = st.score ∨ (step rs u1 u2 st).score = st.score + 10) ∧
      (∀ (st : GameState) (rs : ℕ → ℝ × ℝ) (u1 u2 : ℝ), st.score ≤ (step rs u1 u2 st).score) ∧
      (∀ st : GameState, Reachable M st → 10 ∣ st.score) ∧
      (∀ (st : GameState) (rs : ℕ → ℝ × ℝ) (u1 u2 : ℝ), 10 ∣ st.score →
        st.score < 1500 → 1500 ≤ (step rs u1 u2 st).score → (step rs u1 u2 st).score = 1500) ∧
      (∀ (st : GameState) (rs : ℕ → ℝ × ℝ) (u1 u2 : ℝ), 10 ∣ st.score →
        st.score < 1800 → 1800 ≤ (step rs u1 u2 st).score → (step rs u1 u2 st).score = 1800) := by
  intro M
  refine ⟨rfl, step_score_cases, ?_, reachable_score_dvd M, ?_, ?_⟩
  · intro st rs u1 u2
    rcases step_score_cases st rs u1 u2 with h | h <;> omega
  · intro st rs u1 u2 hdvd hlt hge
    rcases step_score_cases st rs u1 u2 with h | h <;> omega
  · intro st rs u1 u2 hdvd hlt hge
    rcases step_score_cases st rs u1 u2 with h | h <;> omega

/-- A playing state at score 1490 whose idle player sits on a pellet. -/
noncomputable def c10st : GameState :=
  ⟨[[Tile.PELLET]], ⟨16, 16, 0, 0, none, none, 2⟩, [], none, 1490, 5, Phase.PLAYING⟩

theorem claim_C10_witness :
    (initGame [[Tile.PELLET]]).score = 0 ∧
    10 ∣ (initGame [[Tile.PELLET]]).score ∧
    (step (fun _ => (0, 0)) 0 0 c10st).score = 1500 := by
  have hidle := updatePosition_idle c10st.pacman c10st.map rfl rfl
  have hp : tget ({ c10st with pacman := c10st.pacman.updatePosition c10st.map } : GameState).map
      ({ c10st with pacman := c10st.pacman.updatePosition c10st.map } : GameState).pacman.gridY
      ({ c10st with pacman := c10st.pacman.updatePosition c10st.map } : GameState).pacman.gridX
      = Tile.PELLET := by
    show tget c10st.map (c10st.pacman.updatePosition c10st.map).gridY
      (c10st.pacman.updatePosition c10st.map).gridX = Tile.PELLET
    rw [hidle.1, hidle.2]
    decide
  have hscore : (step (fun _ => (0, 0)) 0 0 c10st).score = c10st.score + 10 := by
    rw [step, ultimateStage_score, ghostStage_score, eatStage_eq _ hp]
  refine ⟨(claim_C10_score_invariant [[Tile.PELLET]]).1,
    (claim_C10_score_invariant [[Tile.PELLET]]).2.2.2.1 _ (Reachable.init),
    (claim_C10_score_invariant [[Tile.PELLET]]).2.2.2.2.1 c10st (fun _ => (0, 0)) 0 0
      (by norm_num [c10st]) (by norm_num [c10st]) (by rw [hscore]; norm_num [c10st])⟩
